import Mathlib

/-!
Shallow embedding of the quiz-api repository (Express + Supabase quiz
generator) and proofs about its behaviour.

The repository consists of several near-duplicate server prototypes:
`src/server.js` holds three concatenated variants (namespaces `ServerJs1`,
`ServerJs2`, `ServerJs3` below, in file order), `src/unnamed/part_000` holds
two variants (`Part000A` = the ESM one, `Part000B` = the CommonJS one with the
attempts endpoints), `src/unnamed/part_002` holds the `clampQuestions` variant
(`Part002`), and `src/unnamed/part_003` the JSON-schema variant (`Part003`).

JS strings are modelled as `List Char`; JS numbers as `JsNum` (an exact
rational plus NaN and the infinities); fallible code returns `Option` or
`Except`; the Supabase store is a record of row lists with explicit state
passing, and an injected boolean models a failing insert.
-/

set_option maxHeartbeats 1000000

namespace QuizApi

/-! ### JS string primitives over `List Char` -/

/-- The backtick character (code point 96). -/
def btick : Char := Char.ofNat 96

/-- JSON whitespace accepted by `JSON.parse` (RFC 8259): space, tab, LF, CR. -/
def isJsonWs (c : Char) : Bool := c = ' ' || c = '\t' || c = '\n' || c = '\r'

/-- Whitespace removed by `String.prototype.trim`: the JSON set plus vertical
tab, form feed, NBSP, BOM and the Unicode line separators. -/
def isTrimWs (c : Char) : Bool :=
  c = ' ' || c = '\t' || c = '\n' || c = '\r' || c = Char.ofNat 11 || c = Char.ofNat 12 ||
  c = Char.ofNat 160 || c = Char.ofNat 65279 || c = Char.ofNat 8232 || c = Char.ofNat 8233

def trimStartChars (l : List Char) : List Char := l.dropWhile isTrimWs

def trimEndChars (l : List Char) : List Char := (l.reverse.dropWhile isTrimWs).reverse

/-- Model of `text.trim()` on a char-list string. -/
def jsTrim (l : List Char) : List Char := trimEndChars (trimStartChars l)

/-- Model of `s.trim()` on Lean strings (structural, so it reduces in the kernel). -/
def jsTrimS (s : String) : String := ⟨jsTrim s.data⟩

/-- Model of `s.toLowerCase()` (ASCII case mapping, the only one the sources rely on). -/
def lowerChars (l : List Char) : List Char := l.map Char.toLower

/-- Model of `s.toLowerCase()` on Lean strings. -/
def lowerS (s : String) : String := ⟨lowerChars s.data⟩

/-- Model of `l.startsWith pat` on char lists (pattern first). -/
def startsWithChars : List Char → List Char → Bool
  | [], _ => true
  | _ :: _, [] => false
  | p :: ps, c :: cs => p = c && startsWithChars ps cs

/-! ### JSON values and a model of `JSON.parse`

`JSON.parse` is embedded as a fuel-based recursive-descent parser over
`List Char`.  Numbers keep their source token (the claims never compare
numerals across different spellings), strings are unescaped. -/

inductive Json where
  | null
  | jbool (b : Bool)
  | jnum (tok : List Char)
  | jstr (s : List Char)
  | jarr (xs : List Json)
  | jobj (fields : List (List Char × Json))

def skipJsonWs (l : List Char) : List Char := l.dropWhile isJsonWs

def hexVal (c : Char) : Option Nat :=
  if '0' ≤ c ∧ c ≤ '9' then some (c.toNat - 48)
  else if 'a' ≤ c ∧ c ≤ 'f' then some (c.toNat - 97 + 10)
  else if 'A' ≤ c ∧ c ≤ 'F' then some (c.toNat - 65 + 10)
  else none

def escChar (e : Char) : Option Char :=
  if e = '"' then some '"'
  else if e = '\\' then some '\\'
  else if e = '/' then some '/'
  else if e = 'b' then some (Char.ofNat 8)
  else if e = 'f' then some (Char.ofNat 12)
  else if e = 'n' then some '\n'
  else if e = 'r' then some '\r'
  else if e = 't' then some '\t'
  else none

/-- Body of a JSON string after the opening quote; returns content and rest. -/
def parseStringRest : Nat → List Char → Option (List Char × List Char)
  | 0, _ => none
  | _ + 1, [] => none
  | fuel + 1, c :: r =>
    if c = '"' then some ([], r)
    else if c = '\\' then
      match r with
      | 'u' :: h1 :: h2 :: h3 :: h4 :: r2 =>
        match hexVal h1, hexVal h2, hexVal h3, hexVal h4 with
        | some a, some b, some c4, some d =>
          (parseStringRest fuel r2).map
            (fun p => (Char.ofNat (((a * 16 + b) * 16 + c4) * 16 + d) :: p.1, p.2))
        | _, _, _, _ => none
      | e :: r2 =>
        match escChar e with
        | some ch => (parseStringRest fuel r2).map (fun p => (ch :: p.1, p.2))
        | none => none
      | [] => none
    else if c.toNat < 32 then none
    else (parseStringRest fuel r).map (fun p => (c :: p.1, p.2))

def digitsSpan (l : List Char) : List Char × List Char :=
  (l.takeWhile Char.isDigit, l.dropWhile Char.isDigit)

def parseIntPart : List Char → Option (List Char × List Char)
  | [] => none
  | c :: r =>
    if c = '0' then some (['0'], r)
    else if c.isDigit then
      let p := digitsSpan r
      some (c :: p.1, p.2)
    else none

def parseFracPart (l : List Char) : Option (List Char × List Char) :=
  match l with
  | '.' :: r =>
    let p := digitsSpan r
    if p.1 = [] then none else some ('.' :: p.1, p.2)
  | _ => some ([], l)

def parseExpPart (l : List Char) : Option (List Char × List Char) :=
  match l with
  | [] => some ([], [])
  | c :: r =>
    if c = 'e' ∨ c = 'E' then
      match r with
      | [] => none
      | s :: r2 =>
        if s = '+' ∨ s = '-' then
          let p := digitsSpan r2
          if p.1 = [] then none else some (c :: s :: p.1, p.2)
        else
          let p := digitsSpan r
          if p.1 = [] then none else some (c :: p.1, p.2)
    else some ([], c :: r)

def joinFracExp (ip : List Char) (r : List Char) : Option (List Char × List Char) :=
  match parseFracPart r with
  | none => none
  | some (fp, r2) =>
    match parseExpPart r2 with
    | none => none
    | some (ep, r3) => some (ip ++ fp ++ ep, r3)

def parseNumberTok (l : List Char) : Option (List Char × List Char) :=
  match l with
  | '-' :: r =>
    match parseIntPart r with
    | none => none
    | some (ip, r2) =>
      match joinFracExp ip r2 with
      | none => none
      | some (tok, r3) => some ('-' :: tok, r3)
  | _ =>
    match parseIntPart l with
    | none => none
    | some (ip, r2) => joinFracExp ip r2

mutual

def parseValue : Nat → List Char → Option (Json × List Char)
  | 0, _ => none
  | _ + 1, [] => none
  | fuel + 1, c :: r =>
    if c = '{' then
      match skipJsonWs r with
      | '}' :: r2 => some (.jobj [], r2)
      | r1 => parseMembers fuel r1 []
    else if c = '[' then
      match skipJsonWs r with
      | ']' :: r2 => some (.jarr [], r2)
      | r1 => parseElems fuel r1 []
    else if c = '"' then
      match parseStringRest (r.length + 1) r with
      | some (s, r2) => some (.jstr s, r2)
      | none => none
    else if c = 't' then
      if startsWithChars ['t', 'r', 'u', 'e'] (c :: r) then
        some (.jbool true, (c :: r).drop 4)
      else none
    else if c = 'f' then
      if startsWithChars ['f', 'a', 'l', 's', 'e'] (c :: r) then
        some (.jbool false, (c :: r).drop 5)
      else none
    else if c = 'n' then
      if startsWithChars ['n', 'u', 'l', 'l'] (c :: r) then
        some (.null, (c :: r).drop 4)
      else none
    else if c = '-' ∨ c.isDigit then
      match parseNumberTok (c :: r) with
      | some (tok, r2) => some (.jnum tok, r2)
      | none => none
    else none

def parseElems : Nat → List Char → List Json → Option (Json × List Char)
  | 0, _, _ => none
  | fuel + 1, l, acc =>
    match parseValue fuel (skipJsonWs l) with
    | none => none
    | some (v, r) =>
      match skipJsonWs r with
      | ',' :: r2 => parseElems fuel r2 (acc ++ [v])
      | ']' :: r2 => some (.jarr (acc ++ [v]), r2)
      | _ => none

def parseMembers : Nat → List Char → List (List Char × Json) → Option (Json × List Char)
  | 0, _, _ => none
  | fuel + 1, l, acc =>
    match skipJsonWs l with
    | '"' :: r =>
      match parseStringRest (r.length + 1) r with
      | none => none
      | some (k, r2) =>
        match skipJsonWs r2 with
        | ':' :: r3 =>
          match parseValue fuel (skipJsonWs r3) with
          | none => none
          | some (v, r4) =>
            match skipJsonWs r4 with
            | ',' :: r5 => parseMembers fuel r5 (acc ++ [(k, v)])
            | '}' :: r5 => some (.jobj (acc ++ [(k, v)]), r5)
            | _ => none
        | _ => none
    | _ => none

end

/-- Model of `JSON.parse` on a whole document: leading/trailing JSON
whitespace allowed, anything else after the value is an error. -/
def jsonParse (l : List Char) : Option Json :=
  match parseValue (l.length + 1) (skipJsonWs l) with
  | some (v, rest) => if skipJsonWs rest = [] then some v else none
  | none => none

/-! ### JS numbers

JS numbers are modelled as exact rationals plus NaN and the two infinities
(the sources only clamp, round and compare small counts, where binary
floating point and exact rationals agree). -/

inductive JsNum where
  | nan
  | inf
  | ninf
  | num (q : ℚ)
  deriving DecidableEq, Repr

/-- JS truthiness of a number: NaN and 0 are falsy. -/
def JsNum.truthy : JsNum → Bool
  | .nan => false
  | .num q => decide (q ≠ 0)
  | _ => true

/-- Model of `a || b` on numbers. -/
def jsOr (a b : JsNum) : JsNum := if a.truthy then a else b

/-- Model of `Number.isFinite`. -/
def JsNum.isFinite : JsNum → Bool
  | .num _ => true
  | _ => false

/-- Model of `Math.min` (NaN propagates). -/
def jsMin : JsNum → JsNum → JsNum
  | .nan, _ => .nan
  | _, .nan => .nan
  | .ninf, _ => .ninf
  | _, .ninf => .ninf
  | .inf, b => b
  | a, .inf => a
  | .num p, .num q => .num (min p q)

/-- Model of `Math.max` (NaN propagates). -/
def jsMax : JsNum → JsNum → JsNum
  | .nan, _ => .nan
  | _, .nan => .nan
  | .inf, _ => .inf
  | _, .inf => .inf
  | .ninf, b => b
  | a, .ninf => a
  | .num p, .num q => .num (max p q)

/-- Model of `Math.round`: half-up rounding toward positive infinity. -/
def jsRound : JsNum → JsNum
  | .num q => .num ((⌊q + 1 / 2⌋ : ℤ) : ℚ)
  | x => x

/-! ### JS-level access to parsed JSON values -/

/-- Object field access `j.k` (`undefined`, i.e. `none`, when absent). -/
def jfield (j : Json) (k : List Char) : Option Json :=
  match j with
  | .jobj fs => (fs.find? (fun p => p.1 == k)).map (fun p => p.2)
  | _ => none

/-- JS truthiness of a JSON value (the zero numeral and the empty string are
falsy; missing fields are handled by callers via `Option.getD .null`). -/
def jtruthy : Json → Bool
  | .null => false
  | .jbool b => b
  | .jnum t => !(t == ['0'])
  | .jstr s => !(s == [])
  | .jarr _ => true
  | .jobj _ => true

mutual

/-- JS strict equality `===` restricted to JSON values (no coercions). -/
def Json.beq : Json → Json → Bool
  | .null, .null => true
  | .jbool a, .jbool b => a == b
  | .jnum a, .jnum b => a == b
  | .jstr a, .jstr b => a == b
  | .jarr xs, .jarr ys => Json.beqArr xs ys
  | .jobj fs, .jobj gs => Json.beqObj fs gs
  | _, _ => false

def Json.beqArr : List Json → List Json → Bool
  | [], [] => true
  | x :: xs, y :: ys => Json.beq x y && Json.beqArr xs ys
  | _, _ => false

def Json.beqObj : List (List Char × Json) → List (List Char × Json) → Bool
  | [], [] => true
  | f :: fs, g :: gs => f.1 == g.1 && Json.beq f.2 g.2 && Json.beqObj fs gs
  | _, _ => false

end

def joinComma : List (List Char) → List Char
  | [] => []
  | [x] => x
  | x :: xs => x ++ ',' :: joinComma xs

mutual

/-- JS `String(v)` coercion of a JSON value (arrays join their elements with
commas, objects print as `[object Object]`). -/
def jsToString : Json → List Char
  | .null => ['n', 'u', 'l', 'l']
  | .jbool true => ['t', 'r', 'u', 'e']
  | .jbool false => ['f', 'a', 'l', 's', 'e']
  | .jnum t => t
  | .jstr s => s
  | .jarr xs => joinComma (jsToStringList xs)
  | .jobj _ => "[object Object]".toList

def jsToStringList : List Json → List (List Char)
  | [] => []
  | x :: xs => jsToString x :: jsToStringList xs

end

/-! ### The Supabase store, modelled as row lists -/

structure QuizRow where
  id : String
  user_id : String
  title : String
  language : String
  source_type : String
  source_text : Option String
  deriving DecidableEq, Repr

/-- One question of a validated generation payload, as handed to persistence. -/
structure GenQuestion where
  question : String
  choices : List String
  answer : String
  explanation : String
  deriving DecidableEq, Repr

structure QuestionRow where
  id : String
  quiz_id : String
  idx : Nat
  question : String
  choices : List String
  answer : String
  explanation : String
  deriving DecidableEq, Repr

structure AttemptRow where
  id : String
  quiz_id : String
  user_id : String
  score : Nat
  total : Nat
  finished_at : Option String
  deriving DecidableEq, Repr

structure AnswerRow where
  id : String
  attempt_id : String
  question_id : String
  user_answer : String
  is_correct : Bool
  deriving DecidableEq, Repr

structure Store where
  quizzes : List QuizRow
  questions : List QuestionRow
  attempts : List AttemptRow
  answers : List AnswerRow
  deriving DecidableEq, Repr

def Store.empty : Store := ⟨[], [], [], []⟩

/-- Question rows built by `questions.map((q, i) => ({quiz_id, idx: i + base, ...}))`.
`part_000` (ESM) uses base 0 (`idx: i`), `part_002` uses base 1 (`idx: i + 1`). -/
def questionRowsFrom (quiz_id : String) : Nat → List GenQuestion → List QuestionRow
  | _, [] => []
  | i, q :: rest =>
    { id := "", quiz_id := quiz_id, idx := i, question := q.question, choices := q.choices,
      answer := q.answer, explanation := q.explanation } :: questionRowsFrom quiz_id (i + 1) rest

/-- The quiz fields the regen endpoints read. -/
structure RegenQuiz where
  user_id : String
  title : String
  language : String
  source_type : String
  source_text : Option String
  deriving DecidableEq, Repr

/-! ### `src/server.js`, first variant (QuizRo): fence stripping and
`normalizeQuestions` -/

namespace ServerJs1

def fence : List Char := [btick, btick, btick]

def tripleAt (l : List Char) (i : Nat) : Bool := startsWithChars fence (l.drop i)

def lastFenceAux (l : List Char) : Nat → Option Nat
  | 0 => if tripleAt l 0 then some 0 else none
  | i + 1 => if tripleAt l (i + 1) then some (i + 1) else lastFenceAux l i

/-- Model of `t.lastIndexOf` of the triple-backtick fence. -/
def lastFenceIdx (l : List Char) : Option Nat := lastFenceAux l l.length

/-- Model of `t.indexOf "\n"` (`none` models -1). -/
def firstNewlineIdx : List Char → Option Nat
  | [] => none
  | c :: r => if c = '\n' then some 0 else (firstNewlineIdx r).map (fun i => i + 1)

/-- The `t.replace` of a leading case-insensitive `json` tag plus following
whitespace with the empty string. -/
def stripJsonTag (l : List Char) : List Char :=
  if lowerChars (l.take 4) = ['j', 's', 'o', 'n'] then (l.drop 4).dropWhile isTrimWs else l

/-- Model of `if (firstNewline !== -1) t = t.slice(firstNewline + 1)`. -/
def cutFirstFenceLine (t : List Char) : List Char :=
  match firstNewlineIdx t with
  | some i => t.drop (i + 1)
  | none => t

/-- Model of `if (lastFence !== -1) t = t.slice(0, lastFence)`. -/
def cutAfterLastFence (t : List Char) : List Char :=
  match lastFenceIdx t with
  | some j => t.take j
  | none => t

/-- The body of the `t.startsWith` branch of `stripCodeFences`. -/
def stripFenceBlock (t0 : List Char) : List Char :=
  if startsWithChars fence t0 then cutAfterLastFence (cutFirstFenceLine t0) else t0

/-- Model of `stripCodeFences` from `src/server.js` lines 77-95: trim, cut the first
fenced line and the content after the last fence when the text starts with a
fence, then strip a stray `json` tag and trim again. -/
def stripCodeFences (text : List Char) : List Char :=
  if text = [] then []
  else jsTrim (stripJsonTag (stripFenceBlock (jsTrim text)))

/-- Model of `tryParseJSON` from `src/server.js` lines 97-104: strip fences, then
`JSON.parse` inside try/catch — `none` models the `return null` branch. -/
def tryParseJSON (l : List Char) : Option Json := jsonParse (stripCodeFences l)

/-- One raw model question as consumed by `normalizeQuestions`; `answer_index`
is the first finite value among `answer_index`/`correct_index`/`answerIndex`/
`correct`, or `none`. -/
structure RawQuestion where
  question : String
  options : List String
  answer_index : Option Int
  explanation : String
  deriving DecidableEq, Repr

structure NormQuestion where
  idx : Nat
  question : String
  options : List String
  answer_index : Int
  explanation : String
  deriving DecidableEq, Repr

/-- The per-question body of the `normalizeQuestions` map. -/
def toNorm (idx : Nat) (q : RawQuestion) : NormQuestion :=
  { idx := idx
    question := jsTrimS q.question
    options := q.options
    answer_index := q.answer_index.getD 0
    explanation := jsTrimS q.explanation }

/-- Model of `normalizeQuestions` from `src/server.js` lines 131-157: map (assigning
`idx` by pre-filter array position and defaulting a missing answer index to
0), then filter out questions with empty text or fewer than 2 options. -/
def normalizeQuestions (raw : List RawQuestion) : List NormQuestion :=
  (raw.mapIdx toNorm).filter (fun q => decide (q.question ≠ "" ∧ 2 ≤ q.options.length))

end ServerJs1

/-! ### `src/server.js`, second variant (SmartQuiz ESM): `normalizeLang` and
the regen endpoint -/

namespace ServerJs2

def closedLangs : List String := ["ro", "en", "fr", "de", "es", "it"]

/-- Model of `normalizeLang` from `src/server.js` lines 638-642: lowercase, keep codes
from the closed set, fall back to `"ro"`. -/
def normalizeLang (lang : Option String) : String :=
  let v := lowerS (lang.getD "")
  if v ∈ closedLangs then v else "ro"

/-- The source-availability gate of `POST /api/quiz/regen/:quiz_id`
(`src/server.js` lines 974-1030): when the stored quiz has no non-blank
`source_text` the handler returns 400 before any generation or insert;
otherwise a new quiz is inserted and its id returned (`newId`). -/
def regenHandler (q : RegenQuiz) (newId : String) : Except String String :=
  let sourceText := jsTrimS (q.source_text.getD "")
  if sourceText = "" then
    .error "Nu există source_text salvat pentru acest quiz."
  else .ok newId

end ServerJs2

/-! ### `src/server.js`, third variant (CommonJS, raw fetch): `normalizeLanguage`
and `generateQuiz` with its single JSON-fix retry -/

namespace ServerJs3

/-- Model of `normalizeLanguage` from `src/server.js` lines 1057-1061: absent or
non-string input becomes `"en"`, otherwise the trimmed tag is returned as-is
(empty after trim also becomes `"en"`). -/
def normalizeLanguage (lang : Option String) : String :=
  match lang with
  | none => "en"
  | some s => if s = "" then "en" else if jsTrimS s = "" then "en" else jsTrimS s

/-- The question count used by `generateQuiz` (`src/server.js` line 1076):
the destructuring default `numberOfQuestions = 10` applies only when the
field is absent from `options`, and the value is then embedded in the prompt
without any clamping. -/
def generateQuizCount (numberOfQuestions : Option JsNum) : JsNum :=
  numberOfQuestions.getD (.num 10)

/-- The call structure of `generateQuiz` (`src/server.js` lines 1134-1160):
one model call, `JSON.parse` in try/catch, at most one JSON-fix call, then
`JSON.parse` whose failure propagates as an error.  `oracle i` is the text
returned by the i-th underlying model call; the second component counts the
model calls made. -/
def generateQuiz (oracle : Nat → List Char) : Except String Json × Nat :=
  match jsonParse (oracle 0) with
  | some v => (.ok v, 1)
  | none =>
    match jsonParse (oracle 1) with
    | some v => (.ok v, 2)
    | none => (.error "OpenAI JSON-fix returned invalid JSON", 2)

end ServerJs3

/-! ### `src/unnamed/part_000`, ESM variant -/

namespace Part000A

/-- Model of `pickLanguageCode` (`part_000` lines 67-71): same closed set, default `ro`. -/
def pickLanguageCode (lang : Option String) : String :=
  let v := lowerS (jsTrimS (lang.getD ""))
  if v ∈ ServerJs2.closedLangs then v else "ro"

/-- The question-count clamp of the topic route (`part_000` line 408):
`Math.max(1, Math.min(30, meta.numberOfQuestions || 10))`. -/
def clampQuestionCount (x : JsNum) : JsNum :=
  jsMax (.num 1) (jsMin (.num 30) (jsOr x (.num 10)))

/-- Question rows of `insertQuizAndQuestions` (`part_000` lines 310-325):
`questions.map((q, i) => (... idx: i ...))` — zero-based. -/
def questionRows (quiz_id : String) (qs : List GenQuestion) : List QuestionRow :=
  questionRowsFrom quiz_id 0 qs

/-- Model of `insertQuizAndQuestions` (`part_000` lines 278-325): insert the quiz row,
then insert the question rows; a question-insert failure (modelled by the
injected `questionsInsertFails` flag) throws after the quiz row is already
committed — there is no transaction and no compensating delete. -/
def insertQuizAndQuestions (st : Store) (newId user_id title language source_type : String)
    (source_text : Option String) (questions : List GenQuestion)
    (questionsInsertFails : Bool) : Store × Except String String :=
  let quizRow : QuizRow :=
    ⟨newId, user_id, title, language, source_type, some (source_text.getD "")⟩
  let st1 : Store := { st with quizzes := st.quizzes ++ [quizRow] }
  if questionsInsertFails then (st1, .error "Supabase insert questions failed.")
  else ({ st1 with questions := st1.questions ++ questionRows newId questions }, .ok newId)

/-- Model of `GET /api/quizzes` (`part_000` lines 352-373): quizzes filtered by
`user_id` (ordering by creation time does not matter for visibility). -/
def listQuizzesForUser (st : Store) (uid : String) : List QuizRow :=
  st.quizzes.filter (fun q => q.user_id == uid)

def questionsOfQuiz (st : Store) (qid : String) : List QuestionRow :=
  st.questions.filter (fun q => q.quiz_id == qid)

/-- The source-availability gate of `POST /api/quiz/regen` (`part_000` lines
568-631): `String(quiz.source_text || "").trim()` empty means 400 before any
generation or insert, regardless of `source_type`. -/
def regenHandler (q : RegenQuiz) (newId : String) : Except String String :=
  let sourceText := jsTrimS (q.source_text.getD "")
  if sourceText = "" then
    .error "Quiz-ul vechi nu are source_text salvat."
  else .ok newId

end Part000A

/-! ### `src/unnamed/part_000`, CommonJS variant (generation cleanup and the
attempts endpoints) -/

namespace Part000B

/-- One question of the parsed model payload, before cleanup: string fields
already passed through `safeStr`-style coercion, `idx` is the model-provided
`idx` when finite. -/
structure RawQ where
  question : String
  choices : List String
  answer : String
  explanation : String
  idx : Option Int
  deriving DecidableEq, Repr

structure CleanQ where
  question : String
  choices : List String
  answer : String
  explanation : String
  idx : Int
  deriving DecidableEq, Repr

/-- The per-question map of `generateQuestionsFromText` (`part_000` lines
842-853): take 3 choices, trim all strings, default `idx` to array position. -/
def cleanQ (i : Nat) (q : RawQ) : CleanQ :=
  { question := jsTrimS q.question
    choices := (q.choices.take 3).map jsTrimS
    answer := jsTrimS q.answer
    explanation := jsTrimS q.explanation
    idx := q.idx.getD (Int.ofNat i) }

def insertSorted (q : CleanQ) : List CleanQ → List CleanQ
  | [] => [q]
  | x :: xs => if q.idx < x.idx then q :: x :: xs else x :: insertSorted q xs

/-- Model of `cleaned.sort((a, b) => a.idx - b.idx)`. -/
def sortByIdx (l : List CleanQ) : List CleanQ := l.foldr insertSorted []

/-- The validation loop of `generateQuestionsFromText` (`part_000` lines
856-870): reassign `idx` 0..n-1, reject missing text / wrong choice count /
duplicate choices, and — when the answer matches no choice even
case-insensitively — silently replace it with the first choice. -/
def fixLoop : Nat → List CleanQ → Except String (List CleanQ)
  | _, [] => .ok []
  | i, q :: rest =>
    let q1 := { q with idx := Int.ofNat i }
    if q1.question = "" ∨ q1.choices.length ≠ 3 then
      .error "Întrebări invalide (lipsesc texte sau 3 variante)."
    else
      let lows := q1.choices.map lowerS
      if lows.dedup.length ≠ 3 then
        .error "Variante duplicate la o întrebare. Reîncearcă."
      else
        let q2 :=
          if lows.contains (lowerS q1.answer) then q1
          else { q1 with answer := q1.choices.headD "" }
        match fixLoop (i + 1) rest with
        | .ok out => .ok (q2 :: out)
        | .error e => .error e

/-- The parse-to-payload step of `generateQuestionsFromText` (`part_000`
lines 834-870): exact question count, then clean, sort by model `idx`, and
run the validation loop. -/
def generateQuestionsFromText (n : Nat) (parsedQuestions : List RawQ) :
    Except String (List CleanQ) :=
  if parsedQuestions.length ≠ n then
    .error "OpenAI nu a generat exact n întrebări."
  else fixLoop 0 (sortByIdx (parsedQuestions.mapIdx cleanQ))

def answerKey (aid qid : String) (r : AnswerRow) : Bool :=
  r.attempt_id == aid && r.question_id == qid

/-- Supabase `upsert` with `onConflict: "attempt_id,question_id"`: replace the
existing row for the key, else append. -/
def upsertAnswer (r : AnswerRow) : List AnswerRow → List AnswerRow
  | [] => [r]
  | x :: xs => if answerKey r.attempt_id r.question_id x then r :: xs else x :: upsertAnswer r xs

/-- Model of `POST /api/attempts/answer` (`part_000` lines 1065-1108): look up the
question, grade by exact comparison of the trimmed canonical answer with the
trimmed submission, and upsert the answer row. -/
def submitAnswer (st : Store) (newRowId attempt_id question_id rawAnswer : String) :
    Store × Except String Bool :=
  match st.questions.find? (fun q => q.id == question_id) with
  | none => (st, .error "question not found")
  | some q =>
    let user_answer := jsTrimS rawAnswer
    let is_correct := jsTrimS q.answer == user_answer
    let row : AnswerRow := ⟨newRowId, attempt_id, question_id, user_answer, is_correct⟩
    ({ st with answers := upsertAnswer row st.answers }, .ok is_correct)

/-- Model of `POST /api/attempts/finish` (`part_000` lines 1111-1147): fetch the
attempt, recompute the score as the count of `is_correct` answer rows of the
attempt, and update the attempt row. -/
def finishAttempt (st : Store) (attempt_id finishTime : String) :
    Store × Except String AttemptRow :=
  match st.attempts.find? (fun a => a.id == attempt_id) with
  | none => (st, .error "attempt not found")
  | some att =>
    let answers := st.answers.filter (fun a => a.attempt_id == attempt_id)
    let score := (answers.filter (fun a => a.is_correct)).length
    let updated := { att with score := score, finished_at := some finishTime }
    ({ st with attempts := st.attempts.map (fun a => if a.id == attempt_id then updated else a) },
      .ok updated)

end Part000B

/-! ### `src/unnamed/part_002` (CommonJS variant with `clampQuestions`) -/

namespace Part002

/-- Model of `clampQuestions` (`part_002` lines 217-221): `Number(n || 10)`, then 10
for non-finite values, else clamp the rounded value into 1..10. -/
def clampQuestions (v : JsNum) : JsNum :=
  let x := jsOr v (.num 10)
  if x.isFinite then jsMax (.num 1) (jsMin (.num 10) (jsRound x)) else .num 10

def kQuestions : List Char := "questions".toList
def kQuestion : List Char := "question".toList
def kChoices : List Char := "choices".toList
def kAnswer : List Char := "answer".toList
def kExplanation : List Char := "explanation".toList

structure P2Question where
  question : List Char
  choices : List (List Char)
  answer : List Char
  explanation : List Char
  deriving DecidableEq, Repr

/-- The per-question validation of `makeCall` (`part_002` lines 342-363):
structure check, `choices.includes(answer)` by strict equality, duplicate
check on string-coerced choices, then the trimmed payload. -/
def checkQs : List Json → Except String (List P2Question)
  | [] => .ok []
  | q :: rest =>
    let questionF := (jfield q kQuestion).getD .null
    let answerF := (jfield q kAnswer).getD .null
    match (jfield q kChoices).getD .null with
    | .jarr cs =>
      if jtruthy questionF = false ∨ cs.length ≠ 3 ∨ jtruthy answerF = false then
        .error "Întrebarea are structură invalidă."
      else if (cs.any (fun c => Json.beq c answerF)) = false then
        .error "Întrebarea are answer care nu e în choices."
      else if ((cs.map jsToString).dedup).length ≠ 3 then
        .error "Întrebarea are choices duplicate."
      else
        match checkQs rest with
        | .error e => .error e
        | .ok out =>
          .ok ({ question := jsTrim (jsToString questionF)
                 choices := cs.map (fun c => jsTrim (jsToString c))
                 answer := jsTrim (jsToString answerF)
                 explanation :=
                   jsTrim (jsToString ((jfield q kExplanation).getD (.jstr []))) } :: out)
    | _ => .error "Întrebarea are structură invalidă."

/-- One `makeCall` (`part_002` lines 317-365): one model response text,
`JSON.parse`, `questions` must be an array of exactly `n` validated items. -/
def makeCall (n : Nat) (txt : List Char) : Except String (List P2Question) :=
  match jsonParse txt with
  | none => .error "OpenAI nu a returnat JSON valid cu questions."
  | some j =>
    match jfield j kQuestions with
    | some (.jarr qs) =>
      if qs.length ≠ n then .error "OpenAI a returnat alt număr de întrebări decât cerut."
      else checkQs qs
    | _ => .error "OpenAI nu a returnat JSON valid cu questions."

/-- Model of `generateQuizWithOpenAI` (`part_002` lines 312-380): first `makeCall`, and
on any failure exactly one retry `makeCall`; the second component counts the
underlying model calls. -/
def generateQuizWithOpenAI (n : Nat) (oracle : Nat → List Char) :
    Except String (List P2Question) × Nat :=
  match makeCall n (oracle 0) with
  | .ok r => (.ok r, 1)
  | .error _ => (makeCall n (oracle 1), 2)

/-- Question rows of `insertQuizAndQuestions` (`part_002` lines 406-420):
`questions.map((q, i) => (... idx: i + 1 ...))` — one-based. -/
def questionRows (quiz_id : String) (qs : List GenQuestion) : List QuestionRow :=
  questionRowsFrom quiz_id 1 qs

/-- Model of `source_text: source_text || null`. -/
def sourceTextOrNull (s : Option String) : Option String :=
  match s with
  | some s => if s = "" then none else some s
  | none => none

/-- Model of `insertQuizAndQuestions` (`part_002` lines 383-420): same two-step write
as the `part_000` variant — quiz row first, then question rows (one-based
`idx`), with no transaction and no compensating delete on failure. -/
def insertQuizAndQuestions (st : Store) (newId user_id title language source_type : String)
    (source_text : Option String) (questions : List GenQuestion)
    (questionsInsertFails : Bool) : Store × Except String String :=
  let quizRow : QuizRow :=
    ⟨newId, user_id, title, language, source_type, sourceTextOrNull source_text⟩
  let st1 : Store := { st with quizzes := st.quizzes ++ [quizRow] }
  if questionsInsertFails then (st1, .error "DB questions insert error.")
  else ({ st1 with questions := st1.questions ++ questionRows newId questions }, .ok newId)

/-- The source-availability gate of `POST /api/quiz/regen/:quiz_id`
(`part_002` lines 622-683): only a `pdf` quiz with falsy `source_text` is
rejected; any other quiz proceeds to generation and a new insert. -/
def regenHandler (q : RegenQuiz) (newId : String) : Except String String :=
  let sourceText := q.source_text.getD ""
  if q.source_type = "pdf" ∧ sourceText = "" then
    .error "Quiz-ul nu are source_text salvat. Reîncarcă PDF."
  else .ok newId

end Part002

/-! ### `src/unnamed/part_003` (JSON-schema variant) -/

namespace Part003

/-- Model of `normalizeLanguage` (`part_003` lines 20-24): absent or non-string input
becomes `"ro"`, otherwise the trimmed lowercased tag is returned as-is. -/
def normalizeLanguage (lang : Option String) : String :=
  match lang with
  | none => "ro"
  | some s =>
    if s = "" then "ro"
    else if lowerS (jsTrimS s) = "" then "ro" else lowerS (jsTrimS s)

/-- Model of `safeNumber` (`part_003` lines 26-29). -/
def safeNumber (v : JsNum) (fallback : ℚ) : ℚ :=
  match v with
  | .num q => q
  | _ => fallback

/-- Model of `clamp` (`part_003` lines 38-40) on the finite values produced by
`safeNumber`. -/
def clamp (n lo hi : ℚ) : ℚ := max lo (min hi n)

/-- The question count entering the generation contract (`part_003` line
119): `clamp(safeNumber(options?.numberOfQuestions, 10), 3, 20)`. -/
def contractQuestionCount (v : JsNum) : ℚ := clamp (safeNumber v 10) 3 20

/-- The call structure of `generateQuiz` (`part_003` lines 190-201): one
`openaiCall`, `JSON.parse` in try/catch, at most one repair `openaiCall`,
then `JSON.parse` whose failure propagates. -/
def generateQuiz (oracle : Nat → List Char) : Except String Json × Nat :=
  match jsonParse (oracle 0) with
  | some v => (.ok v, 1)
  | none =>
    match jsonParse (oracle 1) with
    | some v => (.ok v, 2)
    | none => (.error "repair call returned invalid JSON", 2)

end Part003

/-! ### Remaining definitions used by the theorems -/

/-- A sequence of `submitAnswer` calls for one `(attempt_id, question_id)`
pair; each element is `(new row id, raw answer)`. -/
def Part000B.submitMany (st : Store) (aid qid : String) (subs : List (String × String)) : Store :=
  subs.foldl (fun s p => (Part000B.submitAnswer s p.1 aid qid p.2).1) st

/-- The opening line of a markdown code fence with a `json` tag. -/
def fenceJsonOpen : List Char := [btick, btick, btick, 'j', 's', 'o', 'n', '\n']

/-- The opening line of a plain markdown code fence. -/
def fencePlainOpen : List Char := [btick, btick, btick, '\n']

/-- The closing fence on its own line. -/
def fenceCloseTok : List Char := ['\n', btick, btick, btick]

/-- The chars on which a JSON value can start. -/
def isValueStart (c : Char) : Bool :=
  c = '{' || c = '[' || c = '"' || c = 't' || c = 'f' || c = 'n' || c = '-' || c.isDigit

/-! ## Claim C1 -/

/-- Claim C1 (code_bug evidence): on a payload whose `answer` matches no
choice even after case-insensitive trimmed comparison, the CommonJS
`generateQuestionsFromText` of `part_000` succeeds and silently substitutes
the first choice `"A"` for the stated answer `"D"` instead of failing with a
validation error, and `normalizeQuestions` of `server.js` likewise keeps the
question, defaulting a missing/invalid answer index to 0 (the first option). -/
theorem c1_silent_first_choice_fallback :
    Part000B.generateQuestionsFromText 1
        [{ question := "Care?", choices := ["A", "B", "C"], answer := "D",
           explanation := "expl", idx := none }] =
      .ok [{ question := "Care?", choices := ["A", "B", "C"], answer := "A",
             explanation := "expl", idx := 0 }] ∧
    ServerJs1.normalizeQuestions
        [{ question := "Q?", options := ["A", "B"], answer_index := none,
           explanation := "e" }] =
      [{ idx := 0, question := "Q?", options := ["A", "B"], answer_index := 0,
         explanation := "e" }] := by
  exact ⟨rfl, rfl⟩

/-! ## Claim C2 -/

/-- Claim C2 is false as stated: `part_002`'s `insertQuizAndQuestions` stores
`idx = 1` for a single-question quiz, whose idx multiset `(1)` differs from
`(0, ..., n-1) = (0)`; and `server.js`'s `normalizeQuestions` assigns `idx`
before filtering, so a payload with one invalid and one valid question
persists the single question with `idx = 1`. -/
theorem c2_counterexample :
    ((Part002.questionRows "q1" [⟨"Q?", ["A", "B", "C"], "A", "e"⟩]).map
        (fun r => r.idx) = [1] ∧
      ¬ ((([1] : List ℕ) : Multiset ℕ) = ↑(List.range 1))) ∧
    (ServerJs1.normalizeQuestions
        [⟨"", ["A", "B"], some 0, ""⟩, ⟨"Q?", ["A", "B"], some 0, "e"⟩]).map
        (fun r => r.idx) = [1] := by
  exact ⟨⟨rfl, by decide⟩, rfl⟩

theorem questionRowsFrom_idx (quiz_id : String) :
    ∀ (i : Nat) (qs : List GenQuestion),
      (questionRowsFrom quiz_id i qs).map (fun r => r.idx) = List.range' i qs.length := by
  intro i qs
  induction qs generalizing i with
  | nil => simp [questionRowsFrom]
  | cons q rest ih => simp [questionRowsFrom, List.range'_succ, ih]

/-- Claim C2 amended: `part_000`'s `insertQuizAndQuestions` stores contiguous
zero-based idx `0..n-1` in array order; `part_002`'s variant stores the
one-based run `1..n`; and `normalizeQuestions` yields `0..n-1` only when no
entry is filtered out (it assigns positions before filtering). -/
theorem c2_idx_contiguity_amended (quiz_id : String) (qs : List GenQuestion)
    (raw : List ServerJs1.RawQuestion)
    (hvalid : ∀ q ∈ raw, jsTrimS q.question ≠ "" ∧ 2 ≤ q.options.length) :
    (Part000A.questionRows quiz_id qs).map (fun r => r.idx) = List.range qs.length ∧
    (Part002.questionRows quiz_id qs).map (fun r => r.idx) = List.range' 1 qs.length ∧
    (ServerJs1.normalizeQuestions raw).map (fun r => r.idx) = List.range raw.length := by
  refine ⟨?_, ?_, ?_⟩
  · rw [Part000A.questionRows, questionRowsFrom_idx, List.range_eq_range']
  · rw [Part002.questionRows, questionRowsFrom_idx]
  · have aux : ∀ (k : Nat) (l : List ServerJs1.RawQuestion),
        (∀ q ∈ l, jsTrimS q.question ≠ "" ∧ 2 ≤ q.options.length) →
        (((l.mapIdx fun i q => ServerJs1.toNorm (i + k) q).filter
            (fun q => decide (q.question ≠ "" ∧ 2 ≤ q.options.length))).map
          (fun r => r.idx)) = List.range' k l.length := by
      intro k l
      induction l generalizing k with
      | nil => intro _; simp
      | cons q rest ih =>
        intro hall
        have hq := hall q (List.mem_cons_self q rest)
        have hrest : ∀ p ∈ rest, jsTrimS p.question ≠ "" ∧ 2 ≤ p.options.length :=
          fun p hp => hall p (List.mem_cons_of_mem q hp)
        have step : (List.mapIdx (fun i p => ServerJs1.toNorm (i + k) p) (q :: rest)) =
            ServerJs1.toNorm k q ::
              List.mapIdx (fun i p => ServerJs1.toNorm (i + (k + 1)) p) rest := by
          rw [List.mapIdx_cons]
          refine congrArg₂ List.cons (congrArg (fun j => ServerJs1.toNorm j q) (Nat.zero_add k)) ?_
          refine congrArg (fun f => List.mapIdx f rest) ?_
          funext i p
          exact congrArg (fun j => ServerJs1.toNorm j p) (by omega)
        rw [step, List.filter_cons_of_pos (by simpa [ServerJs1.toNorm] using hq), List.map_cons,
          List.length_cons, List.range'_succ]
        exact congrArg₂ List.cons rfl (ih (k + 1) hrest)
    rw [List.range_eq_range', ServerJs1.normalizeQuestions]
    have h0 : (fun i q => ServerJs1.toNorm (i + 0) q) = ServerJs1.toNorm := by
      funext i q
      rw [Nat.add_zero]
    rw [← h0]
    exact aux 0 raw hvalid

theorem c2_witness :
    (Part000A.questionRows "q" [⟨"Q?", ["A", "B", "C"], "A", "e"⟩]).map
        (fun r => r.idx) = List.range 1 ∧
    (∀ q ∈ [(⟨"Q?", ["A", "B"], some 0, "e"⟩ : ServerJs1.RawQuestion)],
        jsTrimS q.question ≠ "" ∧ 2 ≤ q.options.length) := by
  refine ⟨(c2_idx_contiguity_amended "q" _ [⟨"Q?", ["A", "B"], some 0, "e"⟩] ?_).1, ?_⟩ <;>
    · intro q hq
      simp only [List.mem_singleton] at hq
      subst hq
      exact ⟨by decide, by decide⟩

/-! ## Claim C8 -/

/-- Claim C8 is false as stated: the `generateQuiz` variant of `server.js`
embeds the requested question count in the generation contract without any
clamping, so a request for 1000 questions propagates 1000, outside 1..30. -/
theorem c8_counterexample :
    ServerJs3.generateQuizCount (some (.num 1000)) = .num 1000 ∧
    ¬ ((1 : ℚ) ≤ 1000 ∧ (1000 : ℚ) ≤ 30) := by
  refine ⟨rfl, ?_⟩
  rintro ⟨-, h⟩
  norm_num at h

/-- Claim C8 amended: the three clamping sites always produce a count in
1..30 — `part_000` clamps into 1..30 with default 10, `part_002` into 1..10
(after rounding) with default 10, `part_003` into 3..20 with default 10 —
but `server.js`'s `generateQuiz` contract uses the requested count unclamped
whenever the field is present. -/
theorem c8_count_clamped_amended (x : JsNum) (y : JsNum) :
    (∃ q, Part000A.clampQuestionCount x = .num q ∧ 1 ≤ q ∧ q ≤ 30) ∧
    (∃ q, Part002.clampQuestions x = .num q ∧ 1 ≤ q ∧ q ≤ 30) ∧
    (1 ≤ Part003.contractQuestionCount x ∧ Part003.contractQuestionCount x ≤ 30) ∧
    ServerJs3.generateQuizCount (some y) = y := by
  refine ⟨?_, ?_, ?_, rfl⟩
  · rcases x with _ | _ | _ | q
    · exact ⟨max 1 (min 30 10), rfl, by norm_num, by norm_num⟩
    · exact ⟨max 1 30, rfl, by norm_num, by norm_num⟩
    · exact ⟨1, rfl, by norm_num, by norm_num⟩
    · by_cases hq : q = 0
      · refine ⟨max 1 (min 30 10), ?_, by norm_num, by norm_num⟩
        simp [Part000A.clampQuestionCount, jsOr, JsNum.truthy, hq, jsMin, jsMax]
      · refine ⟨max 1 (min 30 q), ?_, le_max_left _ _,
          max_le (by norm_num) (min_le_left _ _)⟩
        simp [Part000A.clampQuestionCount, jsOr, JsNum.truthy, hq, jsMin, jsMax]
  · rcases x with _ | _ | _ | q
    · exact ⟨max 1 (min 10 ((⌊(10 : ℚ) + 1 / 2⌋ : ℤ) : ℚ)), rfl, by norm_num, by norm_num⟩
    · exact ⟨10, rfl, by norm_num, by norm_num⟩
    · exact ⟨10, rfl, by norm_num, by norm_num⟩
    · by_cases hq : q = 0
      · refine ⟨max 1 (min 10 ((⌊(10 : ℚ) + 1 / 2⌋ : ℤ) : ℚ)), ?_, by norm_num, by norm_num⟩
        simp [Part002.clampQuestions, jsOr, JsNum.truthy, hq, jsMin, jsMax, jsRound,
          JsNum.isFinite]
      · refine ⟨max 1 (min 10 ((⌊q + 1 / 2⌋ : ℤ) : ℚ)), ?_, le_max_left _ _,
          max_le (by norm_num) ((min_le_left _ _).trans (by norm_num))⟩
        simp [Part002.clampQuestions, jsOr, JsNum.truthy, hq, jsMin, jsMax, jsRound,
          JsNum.isFinite]
  · rcases x with _ | _ | _ | q
    · exact ⟨by norm_num [Part003.contractQuestionCount, Part003.clamp, Part003.safeNumber],
        by norm_num [Part003.contractQuestionCount, Part003.clamp, Part003.safeNumber]⟩
    · exact ⟨by norm_num [Part003.contractQuestionCount, Part003.clamp, Part003.safeNumber],
        by norm_num [Part003.contractQuestionCount, Part003.clamp, Part003.safeNumber]⟩
    · exact ⟨by norm_num [Part003.contractQuestionCount, Part003.clamp, Part003.safeNumber],
        by norm_num [Part003.contractQuestionCount, Part003.clamp, Part003.safeNumber]⟩
    · constructor
      · exact le_trans (by norm_num) (le_max_left 3 (min 20 q))
      · exact max_le (by norm_num) ((min_le_left _ _).trans (by norm_num))

/-! ## Claim C9 -/

/-- Claim C9 is false as stated: `normalizeLanguage` of `server.js` (third
section) propagates the unrecognized non-empty tag `"zz"` unchanged instead
of substituting the configured default. -/
theorem c9_counterexample :
    ServerJs3.normalizeLanguage (some "zz") = "zz" ∧
    "zz" ∉ ServerJs2.closedLangs ∧ "zz" ≠ "en" := by
  exact ⟨rfl, by decide, by decide⟩

/-- Claim C9 amended: `normalizeLang` of the second `server.js` section always
outputs a member of the closed set `ro/en/fr/de/es/it` and substitutes the
default `"ro"` for absent or unrecognized codes; but `normalizeLanguage` of
the third section substitutes its default `"en"` only when the input is
absent, non-string or blank, and otherwise propagates the trimmed tag
unchanged — with no closed-set check. -/
theorem c9_language_normalization_amended (lang : Option String) (s : String)
    (hne : s ≠ "") (htrim : jsTrimS s ≠ "") :
    ServerJs2.normalizeLang lang ∈ ServerJs2.closedLangs ∧
    (lowerS (lang.getD "") ∉ ServerJs2.closedLangs → ServerJs2.normalizeLang lang = "ro") ∧
    ServerJs3.normalizeLanguage none = "en" ∧
    ServerJs3.normalizeLanguage (some "") = "en" ∧
    ServerJs3.normalizeLanguage (some s) = jsTrimS s := by
  refine ⟨?_, ?_, rfl, rfl, ?_⟩
  · by_cases h : lowerS (lang.getD "") ∈ ServerJs2.closedLangs
    · rw [ServerJs2.normalizeLang, if_pos h]
      exact h
    · rw [ServerJs2.normalizeLang, if_neg h]
      decide
  · intro h
    rw [ServerJs2.normalizeLang, if_neg h]
  · rw [ServerJs3.normalizeLanguage, if_neg hne, if_neg htrim]

theorem c9_witness :
    ServerJs2.normalizeLang (some "xx") ∈ ServerJs2.closedLangs ∧
    ServerJs3.normalizeLanguage (some "zz ") = jsTrimS "zz " := by
  exact ⟨(c9_language_normalization_amended (some "xx") "zz " (by decide) (by decide)).1,
    (c9_language_normalization_amended (some "xx") "zz " (by decide)
      (by decide)).2.2.2.2⟩

/-! ## Claim C5 -/

/-- Claim C5 is false as stated: `part_002`'s regen endpoint, given a stored
`images` quiz with no retained `source_text` (and `source_type ≠ topic`),
proceeds and creates a new quiz instead of failing with a no-stored-source
error. -/
theorem c5_counterexample :
    Part002.regenHandler ⟨"u1", "T", "ro", "images", none⟩ "new1" = .ok "new1" ∧
    (⟨"u1", "T", "ro", "images", none⟩ : RegenQuiz).source_type ≠ "topic" ∧
    (⟨"u1", "T", "ro", "images", none⟩ : RegenQuiz).source_text = none := by
  exact ⟨rfl, by decide, rfl⟩

/-- Claim C5 amended: the regen handlers of `server.js` (second section) and
`part_000` fail — before creating any new quiz — exactly when the stored
quiz's trimmed `source_text` is blank, regardless of `source_type`
(including `topic`), and produce a new quiz id whenever it is non-blank;
`part_002`'s handler rejects a blank `source_text` only for `pdf` quizzes
and proceeds to create a new quiz for every other quiz, including `images`
quizzes with no retained source. -/
theorem c5_regen_source_gate_amended (q : RegenQuiz) (newId : String) :
    (jsTrimS (q.source_text.getD "") = "" →
      ∃ e1 e2, ServerJs2.regenHandler q newId = .error e1 ∧
        Part000A.regenHandler q newId = .error e2) ∧
    (jsTrimS (q.source_text.getD "") ≠ "" →
      ServerJs2.regenHandler q newId = .ok newId ∧
        Part000A.regenHandler q newId = .ok newId) ∧
    (q.source_type = "pdf" → q.source_text.getD "" = "" →
      ∃ e, Part002.regenHandler q newId = .error e) ∧
    (q.source_type ≠ "pdf" ∨ q.source_text.getD "" ≠ "" →
      Part002.regenHandler q newId = .ok newId) := by
  refine ⟨?_, ?_, ?_, ?_⟩
  · intro h
    exact ⟨_, _, by rw [ServerJs2.regenHandler, if_pos h],
      by rw [Part000A.regenHandler, if_pos h]⟩
  · intro h
    exact ⟨by rw [ServerJs2.regenHandler, if_neg h],
      by rw [Part000A.regenHandler, if_neg h]⟩
  · intro h1 h2
    exact ⟨_, by rw [Part002.regenHandler, if_pos ⟨h1, h2⟩]⟩
  · intro h
    rw [Part002.regenHandler, if_neg]
    rintro ⟨h1, h2⟩
    rcases h with h | h
    · exact h h1
    · exact h h2

theorem c5_witness :
    (∃ e1 e2,
        ServerJs2.regenHandler ⟨"u1", "T", "ro", "pdf", some "  "⟩ "n1" = .error e1 ∧
        Part000A.regenHandler ⟨"u1", "T", "ro", "pdf", some "  "⟩ "n1" = .error e2) ∧
    (ServerJs2.regenHandler ⟨"u1", "T", "ro", "pdf", some "txt"⟩ "n2" = .ok "n2" ∧
      Part000A.regenHandler ⟨"u1", "T", "ro", "pdf", some "txt"⟩ "n2" = .ok "n2") ∧
    (∃ e, Part002.regenHandler ⟨"u1", "T", "ro", "pdf", none⟩ "n3" = .error e) ∧
    Part002.regenHandler ⟨"u1", "T", "ro", "topic", none⟩ "n4" = .ok "n4" := by
  refine ⟨(c5_regen_source_gate_amended ⟨"u1", "T", "ro", "pdf", some "  "⟩ "n1").1 (by decide),
    (c5_regen_source_gate_amended ⟨"u1", "T", "ro", "pdf", some "txt"⟩ "n2").2.1 (by decide),
    (c5_regen_source_gate_amended ⟨"u1", "T", "ro", "pdf", none⟩ "n3").2.2.1 rfl rfl,
    (c5_regen_source_gate_amended ⟨"u1", "T", "ro", "topic", none⟩ "n4").2.2.2
      (Or.inl (by decide))⟩

/-! ## Claim C4 -/

/-- Claim C4 is false as stated: when question insertion fails after the quiz
row was inserted, `part_000`'s `insertQuizAndQuestions` reports the raw
insert error, performs no compensating delete, and the orphan quiz row with
zero questions is visible to the listing query. -/
theorem c4_counterexample :
    (Part000A.insertQuizAndQuestions Store.empty "q1" "u1" "T" "ro" "topic" (some "src")
        [⟨"Q?", ["A", "B", "C"], "A", "e"⟩] true).2 =
      .error "Supabase insert questions failed." ∧
    Part000A.listQuizzesForUser
        (Part000A.insertQuizAndQuestions Store.empty "q1" "u1" "T" "ro" "topic" (some "src")
          [⟨"Q?", ["A", "B", "C"], "A", "e"⟩] true).1 "u1" =
      [⟨"q1", "u1", "T", "ro", "topic", some "src"⟩] ∧
    Part000A.questionsOfQuiz
        (Part000A.insertQuizAndQuestions Store.empty "q1" "u1" "T" "ro" "topic" (some "src")
          [⟨"Q?", ["A", "B", "C"], "A", "e"⟩] true).1 "q1" = [] := by
  exact ⟨rfl, rfl, rfl⟩

/-- Claim C4 amended: on question-insert failure after the quiz row was
inserted, both `insertQuizAndQuestions` variants (`part_000` and `part_002`)
merely raise the insert error: no transaction, no compensating delete, no
distinct partial-failure class — the orphan quiz row (with zero question
rows, given a fresh quiz id) remains in the store and is returned by the
listing query for its owner. -/
theorem c4_partial_failure_amended (st : Store)
    (newId user_id title language source_type : String) (source_text : Option String)
    (questions : List GenQuestion)
    (hfresh : ∀ r ∈ st.questions, r.quiz_id ≠ newId) :
    (Part000A.insertQuizAndQuestions st newId user_id title language source_type source_text
        questions true).2 = .error "Supabase insert questions failed." ∧
    (⟨newId, user_id, title, language, source_type, some (source_text.getD "")⟩ : QuizRow) ∈
      Part000A.listQuizzesForUser
        (Part000A.insertQuizAndQuestions st newId user_id title language source_type source_text
          questions true).1 user_id ∧
    Part000A.questionsOfQuiz
        (Part000A.insertQuizAndQuestions st newId user_id title language source_type source_text
          questions true).1 newId = [] ∧
    (Part002.insertQuizAndQuestions st newId user_id title language source_type source_text
        questions true).2 = .error "DB questions insert error." ∧
    (⟨newId, user_id, title, language, source_type, Part002.sourceTextOrNull source_text⟩ :
        QuizRow) ∈
      (Part002.insertQuizAndQuestions st newId user_id title language source_type source_text
        questions true).1.quizzes := by
  refine ⟨rfl, ?_, ?_, rfl, ?_⟩
  · rw [Part000A.insertQuizAndQuestions]
    simp only [if_pos]
    rw [Part000A.listQuizzesForUser, List.mem_filter]
    exact ⟨List.mem_append_right _ (List.mem_singleton_self _), by simp⟩
  · rw [Part000A.insertQuizAndQuestions]
    simp only [if_pos]
    rw [Part000A.questionsOfQuiz, List.filter_eq_nil_iff]
    intro r hr
    simp only [beq_iff_eq]
    exact hfresh r hr
  · rw [Part002.insertQuizAndQuestions]
    simp only [if_pos]
    exact List.mem_append_right _ (List.mem_singleton_self _)

theorem c4_witness :
    (Part000A.insertQuizAndQuestions Store.empty "q2" "u2" "T2" "en" "pdf" none
        [⟨"Q?", ["A", "B", "C"], "A", "e"⟩] true).2 =
      .error "Supabase insert questions failed." ∧
    Part000A.questionsOfQuiz
        (Part000A.insertQuizAndQuestions Store.empty "q2" "u2" "T2" "en" "pdf" none
          [⟨"Q?", ["A", "B", "C"], "A", "e"⟩] true).1 "q2" = [] := by
  have h := c4_partial_failure_amended Store.empty "q2" "u2" "T2" "en" "pdf" none
    [⟨"Q?", ["A", "B", "C"], "A", "e"⟩] (by intro r hr; cases hr)
  exact ⟨h.1, h.2.2.1⟩

/-! ## Claim C6 -/

/-- Claim C6: when `finishAttempt` completes successfully, the attempt's
score equals the count of `is_correct = true` answer rows stored for that
attempt — a fresh aggregate over the answer rows (which the call leaves
untouched), not a stored counter (the previous `score` field of the attempt
row does not appear in the result). -/
theorem c6_finish_recomputes_score (st : Store) (attempt_id finishTime : String)
    (st2 : Store) (r : AttemptRow)
    (h : Part000B.finishAttempt st attempt_id finishTime = (st2, .ok r)) :
    r.score = ((st.answers.filter (fun a => a.attempt_id == attempt_id)).filter
        (fun a => a.is_correct)).length ∧
    st2.answers = st.answers ∧ r.finished_at = some finishTime := by
  rw [Part000B.finishAttempt] at h
  cases hf : st.attempts.find? (fun a => a.id == attempt_id) with
  | none =>
    rw [hf] at h
    injection h with h1 h2
    cases h2
  | some att =>
    rw [hf] at h
    injection h with h1 h2
    injection h2 with h3
    subst h3
    subst h1
    exact ⟨rfl, rfl, rfl⟩

theorem c6_witness :
    (Part000B.finishAttempt
        ⟨[], [], [⟨"a1", "q1", "u1", 0, 3, none⟩],
          [⟨"r1", "a1", "x1", "A", true⟩, ⟨"r2", "a1", "x2", "B", false⟩,
            ⟨"r3", "zz", "x1", "A", true⟩]⟩ "a1" "t1").2 =
      .ok ⟨"a1", "q1", "u1", 1, 3, some "t1"⟩ ∧
    (⟨"a1", "q1", "u1", 1, 3, some "t1"⟩ : AttemptRow).score =
      (((⟨[], [], [⟨"a1", "q1", "u1", 0, 3, none⟩],
          [⟨"r1", "a1", "x1", "A", true⟩, ⟨"r2", "a1", "x2", "B", false⟩,
            ⟨"r3", "zz", "x1", "A", true⟩]⟩ : Store).answers.filter
          (fun a => a.attempt_id == "a1")).filter (fun a => a.is_correct)).length := by
  refine ⟨rfl, ?_⟩
  exact (c6_finish_recomputes_score
    ⟨[], [], [⟨"a1", "q1", "u1", 0, 3, none⟩],
      [⟨"r1", "a1", "x1", "A", true⟩, ⟨"r2", "a1", "x2", "B", false⟩,
        ⟨"r3", "zz", "x1", "A", true⟩]⟩ "a1" "t1" _ _ rfl).1

/-! ## Claim C7 -/

theorem upsert_countP_find (r : AnswerRow) :
    ∀ rows : List AnswerRow,
      rows.countP (Part000B.answerKey r.attempt_id r.question_id) ≤ 1 →
      (Part000B.upsertAnswer r rows).countP (Part000B.answerKey r.attempt_id r.question_id) = 1 ∧
      (Part000B.upsertAnswer r rows).find? (Part000B.answerKey r.attempt_id r.question_id) =
        some r := by
  have hr : Part000B.answerKey r.attempt_id r.question_id r = true := by
    simp [Part000B.answerKey]
  intro rows
  induction rows with
  | nil =>
    intro _
    refine ⟨?_, List.find?_cons_of_pos _ hr⟩
    simp [Part000B.upsertAnswer, List.countP_cons, hr]
  | cons x xs ih =>
    intro hle
    rw [Part000B.upsertAnswer]
    by_cases hx : Part000B.answerKey r.attempt_id r.question_id x = true
    · rw [if_pos hx]
      have hxs : xs.countP (Part000B.answerKey r.attempt_id r.question_id) = 0 := by
        rw [List.countP_cons, if_pos hx] at hle
        omega
      refine ⟨?_, List.find?_cons_of_pos _ hr⟩
      rw [List.countP_cons, if_pos hr, hxs]
    · rw [if_neg hx]
      have hle2 : xs.countP (Part000B.answerKey r.attempt_id r.question_id) ≤ 1 := by
        rw [List.countP_cons, if_neg hx] at hle
        omega
      obtain ⟨h1, h2⟩ := ih hle2
      refine ⟨?_, ?_⟩
      · rw [List.countP_cons, if_neg hx, h1]
      · rw [List.find?_cons_of_neg _ hx]
        exact h2

theorem submitAnswer_step (st : Store) (rid aid qid raw : String) (q : QuestionRow)
    (hq : st.questions.find? (fun x => x.id == qid) = some q)
    (hcnt : st.answers.countP (Part000B.answerKey aid qid) ≤ 1) :
    ((Part000B.submitAnswer st rid aid qid raw).1.answers.countP
        (Part000B.answerKey aid qid) = 1) ∧
    ((Part000B.submitAnswer st rid aid qid raw).1.answers.find?
        (Part000B.answerKey aid qid) =
      some ⟨rid, aid, qid, jsTrimS raw, jsTrimS q.answer == jsTrimS raw⟩) ∧
    (Part000B.submitAnswer st rid aid qid raw).1.questions = st.questions ∧
    (Part000B.submitAnswer st rid aid qid raw).1.attempts = st.attempts := by
  have h := upsert_countP_find
    ⟨rid, aid, qid, jsTrimS raw, jsTrimS q.answer == jsTrimS raw⟩ st.answers hcnt
  rw [Part000B.submitAnswer, hq]
  exact ⟨h.1, h.2, rfl, rfl⟩

/-- Claim C7: for a fixed `(attempt_id, question_id)` pair holding the
uniqueness invariant, any non-empty sequence of `submitAnswer` calls leaves
exactly one matching `AttemptAnswer` row, and that row's `user_answer` is the
trimmed value of the last submission (last-write-wins, no duplication). -/
theorem c7_answer_upsert (st : Store) (aid qid : String) (q : QuestionRow)
    (subs : List (String × String)) (rid ans : String)
    (hlast : subs.getLast? = some (rid, ans))
    (hq : st.questions.find? (fun x => x.id == qid) = some q)
    (hcnt : st.answers.countP (Part000B.answerKey aid qid) ≤ 1) :
    ((Part000B.submitMany st aid qid subs).answers.countP (Part000B.answerKey aid qid) = 1) ∧
    ∃ r, (Part000B.submitMany st aid qid subs).answers.find? (Part000B.answerKey aid qid) =
        some r ∧ r.user_answer = jsTrimS ans := by
  induction subs generalizing st with
  | nil => cases hlast
  | cons p rest ih =>
    cases rest with
    | nil =>
      have hp : p = (rid, ans) := by
        simpa using hlast
      subst hp
      have h := submitAnswer_step st rid aid qid ans q hq hcnt
      refine ⟨h.1, ⟨rid, aid, qid, jsTrimS ans, jsTrimS q.answer == jsTrimS ans⟩, h.2.1, rfl⟩
    | cons p2 rest2 =>
      rw [List.getLast?_cons_cons] at hlast
      have h := submitAnswer_step st p.1 aid qid p.2 q hq hcnt
      have hq2 : (Part000B.submitAnswer st p.1 aid qid p.2).1.questions.find?
          (fun x => x.id == qid) = some q := by
        rw [h.2.2.1]
        exact hq
      have hcnt2 : (Part000B.submitAnswer st p.1 aid qid p.2).1.answers.countP
          (Part000B.answerKey aid qid) ≤ 1 := by
        rw [h.1]
      exact ih (Part000B.submitAnswer st p.1 aid qid p.2).1 hlast hq2 hcnt2

theorem c7_witness :
    ((Part000B.submitMany
        ⟨[], [⟨"x1", "q1", 0, "Q?", ["A", "B"], "A", "e"⟩], [], []⟩ "a1" "x1"
        [("r1", " A "), ("r2", "B")]).answers.countP (Part000B.answerKey "a1" "x1") = 1) ∧
    ∃ r, (Part000B.submitMany
        ⟨[], [⟨"x1", "q1", 0, "Q?", ["A", "B"], "A", "e"⟩], [], []⟩ "a1" "x1"
        [("r1", " A "), ("r2", "B")]).answers.find? (Part000B.answerKey "a1" "x1") =
        some r ∧ r.user_answer = jsTrimS "B" :=
  c7_answer_upsert ⟨[], [⟨"x1", "q1", 0, "Q?", ["A", "B"], "A", "e"⟩], [], []⟩ "a1" "x1"
    ⟨"x1", "q1", 0, "Q?", ["A", "B"], "A", "e"⟩ [("r1", " A "), ("r2", "B")] "r2" "B"
    rfl rfl (by decide)

/-! ## Claim C3 -/

/-- Claim C3: against a model whose every response is malformed (non-JSON),
each of the three generation engines — `generateQuiz` of `server.js`,
`generateQuiz` of `part_003`, and `generateQuizWithOpenAI` of `part_002` —
makes at most 2 underlying model calls (one initial plus at most one
repair/retry) and then fails with a generation error; none loops further. -/
theorem c3_repair_bound (oracle : Nat → List Char) (n : Nat)
    (hmal : ∀ i, jsonParse (oracle i) = none) :
    ((ServerJs3.generateQuiz oracle).2 ≤ 2 ∧
      ∃ e, (ServerJs3.generateQuiz oracle).1 = .error e) ∧
    ((Part003.generateQuiz oracle).2 ≤ 2 ∧
      ∃ e, (Part003.generateQuiz oracle).1 = .error e) ∧
    ((Part002.generateQuizWithOpenAI n oracle).2 ≤ 2 ∧
      ∃ e, (Part002.generateQuizWithOpenAI n oracle).1 = .error e) := by
  have h0 := hmal 0
  have h1 := hmal 1
  refine ⟨?_, ?_, ?_⟩
  · rw [ServerJs3.generateQuiz, h0, h1]
    exact ⟨Nat.le.refl, _, rfl⟩
  · rw [Part003.generateQuiz, h0, h1]
    exact ⟨Nat.le.refl, _, rfl⟩
  · rw [Part002.generateQuizWithOpenAI, Part002.makeCall, h0]
    rw [Part002.makeCall, h1]
    exact ⟨Nat.le.refl, _, rfl⟩

theorem c3_witness :
    ((ServerJs3.generateQuiz (fun _ => "oops, not json".toList)).2 ≤ 2 ∧
      ∃ e, (ServerJs3.generateQuiz (fun _ => "oops, not json".toList)).1 = .error e) ∧
    ((Part003.generateQuiz (fun _ => "oops, not json".toList)).2 ≤ 2 ∧
      ∃ e, (Part003.generateQuiz (fun _ => "oops, not json".toList)).1 = .error e) ∧
    ((Part002.generateQuizWithOpenAI 5 (fun _ => "oops, not json".toList)).2 ≤ 2 ∧
      ∃ e, (Part002.generateQuizWithOpenAI 5
          (fun _ => "oops, not json".toList)).1 = .error e) :=
  c3_repair_bound (fun _ => "oops, not json".toList) 5 (fun _ => rfl)

/-! ## Claim C10: supporting lemmas on trimming -/

theorem dropWhile_append_of_forall {p : Char → Bool} {w l : List Char}
    (hw : ∀ c ∈ w, p c = true) : List.dropWhile p (w ++ l) = List.dropWhile p l := by
  induction w with
  | nil => rfl
  | cons a w ih =>
    rw [List.cons_append, List.dropWhile_cons, if_pos (hw a (List.mem_cons_self a w))]
    exact ih (fun c hc => hw c (List.mem_cons_of_mem a hc))

theorem dropWhile_head_false {p : Char → Bool} {l : List Char} {c : Char} {r : List Char}
    (h : List.dropWhile p l = c :: r) : p c = false := by
  induction l with
  | nil => cases h
  | cons a l ih =>
    rw [List.dropWhile_cons] at h
    by_cases ha : p a = true
    · rw [if_pos ha] at h
      exact ih h
    · rw [if_neg ha] at h
      injection h with h1 h2
      subst h1
      exact Bool.not_eq_true _ ▸ ha

theorem dropWhile_idem {p : Char → Bool} (l : List Char) :
    List.dropWhile p (List.dropWhile p l) = List.dropWhile p l := by
  cases h : List.dropWhile p l with
  | nil => rfl
  | cons c r =>
    rw [List.dropWhile_cons, if_neg]
    rw [dropWhile_head_false h]
    exact Bool.false_ne_true

theorem trimStart_append_ws {w l : List Char} (hw : ∀ c ∈ w, isTrimWs c = true) :
    trimStartChars (w ++ l) = trimStartChars l :=
  dropWhile_append_of_forall hw

theorem trimStart_cons_of_head {c : Char} {l : List Char} (hc : isTrimWs c = false) :
    trimStartChars (c :: l) = c :: l := by
  rw [trimStartChars, List.dropWhile_cons, if_neg]
  rw [hc]
  exact Bool.false_ne_true

theorem trimEnd_append_ws {l w : List Char} (hw : ∀ c ∈ w, isTrimWs c = true) :
    trimEndChars (l ++ w) = trimEndChars l := by
  rw [trimEndChars, List.reverse_append,
    dropWhile_append_of_forall (fun c hc => hw c (List.mem_reverse.1 hc))]
  rfl

theorem trimEnd_cons_of_head {c : Char} {l : List Char} (hc : isTrimWs c = false) :
    trimEndChars (c :: l) = c :: trimEndChars l := by
  rw [trimEndChars, trimEndChars, List.reverse_cons]
  by_cases h : List.dropWhile isTrimWs l.reverse = []
  · rw [List.dropWhile_append, h]
    simp only [List.isEmpty_nil, if_true]
    rw [List.dropWhile_cons, if_neg (by rw [hc]; exact Bool.false_ne_true)]
    simp [h]
  · rw [List.dropWhile_append, if_neg (by simpa [List.isEmpty_iff] using h)]
    rw [List.reverse_append, List.reverse_singleton, List.singleton_append]

theorem trimEnd_concat_of_last {c : Char} {l : List Char} (hc : isTrimWs c = false) :
    trimEndChars (l ++ [c]) = l ++ [c] := by
  rw [trimEndChars, List.reverse_append, List.reverse_singleton, List.singleton_append,
    List.dropWhile_cons, if_neg (by rw [hc]; exact Bool.false_ne_true), List.reverse_cons,
    List.reverse_reverse]

theorem trimEnd_idem (l : List Char) : trimEndChars (trimEndChars l) = trimEndChars l := by
  rw [trimEndChars, trimEndChars, List.reverse_reverse, dropWhile_idem]

theorem jsTrim_append_ws_left {w l : List Char} (hw : ∀ c ∈ w, isTrimWs c = true) :
    jsTrim (w ++ l) = jsTrim l := by
  rw [jsTrim, jsTrim, trimStart_append_ws hw]

theorem jsTrim_append_ws_right {l w : List Char} (hw : ∀ c ∈ w, isTrimWs c = true) :
    jsTrim (l ++ w) = jsTrim l := by
  rw [jsTrim, jsTrim, trimStartChars, trimStartChars, List.dropWhile_append]
  by_cases h : List.dropWhile isTrimWs l = []
  · rw [h]
    simp only [List.isEmpty_nil, if_true]
    rw [List.dropWhile_eq_nil_iff.2 (fun c hc => hw c hc)]
  · rw [if_neg (by simpa [List.isEmpty_iff] using h)]
    exact trimEnd_append_ws hw

/-! ## Claim C10: supporting lemmas on characters and the parser head -/

theorem trimWs_of_jsonWs {c : Char} (h : isJsonWs c = true) : isTrimWs c = true := by
  simp only [isJsonWs, Bool.or_eq_true, decide_eq_true_eq, or_assoc] at h
  rcases h with h | h | h | h <;> subst h <;> decide

theorem char_digit_bounds {c : Char} (h : c.isDigit = true) :
    48 ≤ c.toNat ∧ c.toNat ≤ 57 := by
  simp only [Char.isDigit, ge_iff_le, Bool.and_eq_true, decide_eq_true_eq] at h
  obtain ⟨h1, h2⟩ := h
  exact ⟨h1, h2⟩

theorem isValueStart_facts {c : Char} (h : isValueStart c = true) :
    isTrimWs c = false ∧ c ≠ btick ∧ Char.toLower c ≠ 'j' := by
  simp only [isValueStart, Bool.or_eq_true, decide_eq_true_eq, or_assoc] at h
  rcases h with h | h | h | h | h | h | h | h
  · subst h; exact ⟨by decide, by decide, by decide⟩
  · subst h; exact ⟨by decide, by decide, by decide⟩
  · subst h; exact ⟨by decide, by decide, by decide⟩
  · subst h; exact ⟨by decide, by decide, by decide⟩
  · subst h; exact ⟨by decide, by decide, by decide⟩
  · subst h; exact ⟨by decide, by decide, by decide⟩
  · subst h; exact ⟨by decide, by decide, by decide⟩
  · have h48 := char_digit_bounds h
    have hlow : Char.toLower c = c := by
      rw [Char.toLower]
      rw [if_neg]
      intro hcontra
      omega
    refine ⟨?_, ?_, ?_⟩
    · by_contra hws
      rw [Bool.not_eq_false] at hws
      simp only [isTrimWs, Bool.or_eq_true, decide_eq_true_eq, or_assoc] at hws
      rcases hws with e | e | e | e | e | e | e | e | e | e <;> subst e <;>
        exact absurd h48 (by decide)
    · intro e
      subst e
      exact absurd h48 (by decide)
    · rw [hlow]
      intro e
      subst e
      exact absurd h48 (by decide)

theorem parseValue_start {fuel : Nat} {l : List Char} {p : Json × List Char}
    (h : parseValue fuel l = some p) : ∃ c r, l = c :: r ∧ isValueStart c = true := by
  cases fuel with
  | zero => cases h
  | succ f =>
    cases l with
    | nil => cases h
    | cons c r =>
      refine ⟨c, r, rfl, ?_⟩
      by_contra hc
      rw [Bool.not_eq_true] at hc
      simp only [isValueStart, Bool.or_eq_false_iff, decide_eq_false_iff_not,
        and_assoc] at hc
      obtain ⟨h1, h2, h3, h4, h5, h6, h7, h8⟩ := hc
      rw [parseValue, if_neg h1, if_neg h2, if_neg h3, if_neg h4, if_neg h5, if_neg h6,
        if_neg ?_] at h
      · cases h
      · rintro (he | he)
        · exact h7 he
        · exact absurd (h8 ▸ he) Bool.false_ne_true

theorem jsonParse_head {t : List Char} {v : Json} (hv : jsonParse t = some v) :
    ∃ c r, skipJsonWs t = c :: r ∧ isValueStart c = true := by
  rw [jsonParse] at hv
  cases hp : parseValue (t.length + 1) (skipJsonWs t) with
  | none => rw [hp] at hv; cases hv
  | some p => exact parseValue_start hp

theorem trimStart_eq_skipJsonWs {t : List Char}
    (hhead : ∀ c r, skipJsonWs t = c :: r → isTrimWs c = false) :
    trimStartChars t = skipJsonWs t := by
  induction t with
  | nil => rfl
  | cons a l ih =>
    by_cases ha : isJsonWs a = true
    · have ha2 : isTrimWs a = true := trimWs_of_jsonWs ha
      have hs : skipJsonWs (a :: l) = skipJsonWs l := by
        rw [skipJsonWs, List.dropWhile_cons, if_pos ha]
        rfl
      rw [trimStartChars, List.dropWhile_cons, if_pos ha2, hs]
      exact ih (fun c r hcr => hhead c r (by rw [hs, hcr]))
    · have hs : skipJsonWs (a :: l) = a :: l := by
        rw [skipJsonWs, List.dropWhile_cons, if_neg ha]
      rw [hs]
      exact trimStart_cons_of_head (hhead a l hs)

/-! ## Claim C10: supporting lemmas on the fence indices -/

theorem startsWithChars_length {p l : List Char} (h : startsWithChars p l = true) :
    p.length ≤ l.length := by
  induction p generalizing l with
  | nil => exact Nat.zero_le _
  | cons a p ih =>
    cases l with
    | nil => cases h
    | cons c r =>
      rw [startsWithChars, Bool.and_eq_true] at h
      exact Nat.succ_le_succ (ih h.2)

theorem tripleAt_close (t : List Char) :
    ServerJs1.tripleAt (t ++ fenceCloseTok) (t.length + 1) = true := by
  rw [ServerJs1.tripleAt, List.drop_append_eq_append_drop,
    List.drop_eq_nil_of_le (by omega), List.nil_append]
  have h1 : t.length + 1 - t.length = 1 := by omega
  rw [h1]
  rfl

theorem tripleAt_above_close (t : List Char) (i : Nat) (hi : t.length + 2 ≤ i) :
    ServerJs1.tripleAt (t ++ fenceCloseTok) i = false := by
  by_contra h
  rw [Bool.not_eq_false] at h
  have hlen := startsWithChars_length h
  rw [List.length_drop, List.length_append] at hlen
  have : fenceCloseTok.length = 4 := rfl
  have : ServerJs1.fence.length = 3 := rfl
  omega

theorem lastFenceAux_close (t : List Char) :
    ∀ k, ServerJs1.lastFenceAux (t ++ fenceCloseTok) (t.length + 1 + k) =
      some (t.length + 1) := by
  intro k
  induction k with
  | zero =>
    show ServerJs1.lastFenceAux (t ++ fenceCloseTok) (t.length + 1) = some (t.length + 1)
    rw [ServerJs1.lastFenceAux, if_pos (tripleAt_close t)]
  | succ k ih =>
    have he : t.length + 1 + (k + 1) = (t.length + 1 + k) + 1 := by omega
    rw [he, ServerJs1.lastFenceAux,
      if_neg (by rw [tripleAt_above_close t _ (by omega)]; exact Bool.false_ne_true)]
    exact ih

theorem lastFenceIdx_close (t : List Char) :
    ServerJs1.lastFenceIdx (t ++ fenceCloseTok) = some (t.length + 1) := by
  rw [ServerJs1.lastFenceIdx]
  have hlen : (t ++ fenceCloseTok).length = t.length + 1 + 3 := by
    rw [List.length_append]
    rfl
  rw [hlen]
  exact lastFenceAux_close t 3

theorem take_close (t : List Char) :
    (t ++ fenceCloseTok).take (t.length + 1) = t ++ ['\n'] := by
  rw [List.take_append_eq_append_take, List.take_of_length_le (by omega)]
  have h1 : t.length + 1 - t.length = 1 := by omega
  rw [h1]
  rfl

theorem stripJsonTag_of_head {c : Char} {l : List Char} (hc : Char.toLower c ≠ 'j') :
    ServerJs1.stripJsonTag (c :: l) = c :: l := by
  rw [ServerJs1.stripJsonTag, if_neg]
  intro h
  rw [List.take_succ_cons, lowerChars, List.map_cons] at h
  injection h with h1 h2
  exact hc h1

/-! ## Claim C10: the two sides of the fence-tolerance equation -/

theorem stripCodeFences_of_valid {t : List Char} {v : Json} (hv : jsonParse t = some v) :
    ServerJs1.stripCodeFences t = jsTrim t := by
  obtain ⟨c, r, hcr, hstart⟩ := jsonParse_head hv
  obtain ⟨hws, hbt, hj⟩ := isValueStart_facts hstart
  have htne : t ≠ [] := by
    intro he
    subst he
    cases hcr
  have hts : trimStartChars t = c :: r := by
    rw [trimStart_eq_skipJsonWs, hcr]
    intro c2 r2 h2
    rw [hcr] at h2
    injection h2 with e1 e2
    subst e1
    exact hws
  have ht0 : jsTrim t = c :: trimEndChars r := by
    rw [jsTrim, hts, trimEnd_cons_of_head hws]
  have hsw : startsWithChars ServerJs1.fence (jsTrim t) = false := by
    rw [ht0]
    show (decide (btick = c) && startsWithChars [btick, btick] (trimEndChars r)) = false
    rw [decide_eq_false (fun h => hbt h.symm)]
    exact Bool.false_and _
  have hfb : ServerJs1.stripFenceBlock (jsTrim t) = jsTrim t := by
    rw [ServerJs1.stripFenceBlock, hsw, if_neg Bool.false_ne_true]
  have htag : ServerJs1.stripJsonTag (jsTrim t) = jsTrim t := by
    rw [ht0]
    exact stripJsonTag_of_head hj
  have hidem : jsTrim (jsTrim t) = jsTrim t := by
    have h1 : trimStartChars (jsTrim t) = jsTrim t := by
      rw [ht0]
      exact trimStart_cons_of_head hws
    show trimEndChars (trimStartChars (jsTrim t)) = jsTrim t
    rw [h1, jsTrim]
    exact trimEnd_idem _
  rw [ServerJs1.stripCodeFences, if_neg htne, hfb, htag, hidem]

theorem stripCodeFences_wrapped_json {w1 w2 t : List Char} {v : Json}
    (hw1 : ∀ c ∈ w1, isTrimWs c = true) (hw2 : ∀ c ∈ w2, isTrimWs c = true)
    (hv : jsonParse t = some v) :
    ServerJs1.stripCodeFences (w1 ++ fenceJsonOpen ++ t ++ fenceCloseTok ++ w2) =
      jsTrim t := by
  obtain ⟨c, r, hcr, hstart⟩ := jsonParse_head hv
  obtain ⟨hws, hbt, hj⟩ := isValueStart_facts hstart
  have hne : w1 ++ fenceJsonOpen ++ t ++ fenceCloseTok ++ w2 ≠ [] := by
    simp [fenceJsonOpen]
  have hassoc : w1 ++ fenceJsonOpen ++ t ++ fenceCloseTok ++ w2 =
      w1 ++ ((fenceJsonOpen ++ (t ++ fenceCloseTok)) ++ w2) := by
    simp [List.append_assoc]
  have hcore : jsTrim (w1 ++ fenceJsonOpen ++ t ++ fenceCloseTok ++ w2) =
      fenceJsonOpen ++ (t ++ fenceCloseTok) := by
    rw [hassoc, jsTrim_append_ws_left hw1, jsTrim_append_ws_right hw2]
    have hlast : fenceJsonOpen ++ (t ++ fenceCloseTok) =
        (fenceJsonOpen ++ (t ++ ['\n', btick, btick])) ++ [btick] := by
      simp [fenceCloseTok, List.append_assoc]
    have hhead : fenceJsonOpen ++ (t ++ fenceCloseTok) =
        btick :: ([btick, btick, 'j', 's', 'o', 'n', '\n'] ++ (t ++ fenceCloseTok)) := rfl
    rw [jsTrim, hhead, trimStart_cons_of_head (by decide), ← hhead, hlast]
    exact trimEnd_concat_of_last (by decide)
  rw [ServerJs1.stripCodeFences, if_neg hne, hcore]
  have hcut1 : ServerJs1.cutFirstFenceLine (fenceJsonOpen ++ (t ++ fenceCloseTok)) =
      t ++ fenceCloseTok := by
    rw [ServerJs1.cutFirstFenceLine,
      show ServerJs1.firstNewlineIdx (fenceJsonOpen ++ (t ++ fenceCloseTok)) = some 7 from rfl]
    rfl
  have hcut2 : ServerJs1.cutAfterLastFence (t ++ fenceCloseTok) = t ++ ['\n'] := by
    rw [ServerJs1.cutAfterLastFence, lastFenceIdx_close]
    exact take_close t
  have hfb : ServerJs1.stripFenceBlock (fenceJsonOpen ++ (t ++ fenceCloseTok)) =
      t ++ ['\n'] := by
    rw [ServerJs1.stripFenceBlock,
      show startsWithChars ServerJs1.fence (fenceJsonOpen ++ (t ++ fenceCloseTok)) = true
        from rfl,
      if_pos rfl, hcut1, hcut2]
  rw [hfb]
  have htag : ServerJs1.stripJsonTag (t ++ ['\n']) = t ++ ['\n'] := by
    cases t with
    | nil => cases hcr
    | cons a t2 =>
      rw [List.cons_append]
      apply stripJsonTag_of_head
      by_cases ha : isJsonWs a = true
      · simp only [isJsonWs, Bool.or_eq_true, decide_eq_true_eq, or_assoc] at ha
        rcases ha with e | e | e | e <;> subst e <;> decide
      · have hs : skipJsonWs (a :: t2) = a :: t2 := by
          rw [skipJsonWs, List.dropWhile_cons, if_neg ha]
        rw [hs] at hcr
        injection hcr with e1 e2
        subst e1
        exact hj
  rw [htag]
  exact jsTrim_append_ws_right
    (by intro x hx; rw [List.mem_singleton] at hx; subst hx; decide)

theorem stripCodeFences_wrapped_plain {w1 w2 t : List Char} {v : Json}
    (hw1 : ∀ c ∈ w1, isTrimWs c = true) (hw2 : ∀ c ∈ w2, isTrimWs c = true)
    (hv : jsonParse t = some v) :
    ServerJs1.stripCodeFences (w1 ++ fencePlainOpen ++ t ++ fenceCloseTok ++ w2) =
      jsTrim t := by
  obtain ⟨c, r, hcr, hstart⟩ := jsonParse_head hv
  obtain ⟨hws, hbt, hj⟩ := isValueStart_facts hstart
  have hne : w1 ++ fencePlainOpen ++ t ++ fenceCloseTok ++ w2 ≠ [] := by
    simp [fencePlainOpen]
  have hassoc : w1 ++ fencePlainOpen ++ t ++ fenceCloseTok ++ w2 =
      w1 ++ ((fencePlainOpen ++ (t ++ fenceCloseTok)) ++ w2) := by
    simp [List.append_assoc]
  have hcore : jsTrim (w1 ++ fencePlainOpen ++ t ++ fenceCloseTok ++ w2) =
      fencePlainOpen ++ (t ++ fenceCloseTok) := by
    rw [hassoc, jsTrim_append_ws_left hw1, jsTrim_append_ws_right hw2]
    have hlast : fencePlainOpen ++ (t ++ fenceCloseTok) =
        (fencePlainOpen ++ (t ++ ['\n', btick, btick])) ++ [btick] := by
      simp [fenceCloseTok, List.append_assoc]
    have hhead : fencePlainOpen ++ (t ++ fenceCloseTok) =
        btick :: ([btick, btick, '\n'] ++ (t ++ fenceCloseTok)) := rfl
    rw [jsTrim, hhead, trimStart_cons_of_head (by decide), ← hhead, hlast]
    exact trimEnd_concat_of_last (by decide)
  rw [ServerJs1.stripCodeFences, if_neg hne, hcore]
  have hcut1 : ServerJs1.cutFirstFenceLine (fencePlainOpen ++ (t ++ fenceCloseTok)) =
      t ++ fenceCloseTok := by
    rw [ServerJs1.cutFirstFenceLine,
      show ServerJs1.firstNewlineIdx (fencePlainOpen ++ (t ++ fenceCloseTok)) = some 3
        from rfl]
    rfl
  have hcut2 : ServerJs1.cutAfterLastFence (t ++ fenceCloseTok) = t ++ ['\n'] := by
    rw [ServerJs1.cutAfterLastFence, lastFenceIdx_close]
    exact take_close t
  have hfb : ServerJs1.stripFenceBlock (fencePlainOpen ++ (t ++ fenceCloseTok)) =
      t ++ ['\n'] := by
    rw [ServerJs1.stripFenceBlock,
      show startsWithChars ServerJs1.fence (fencePlainOpen ++ (t ++ fenceCloseTok)) = true
        from rfl,
      if_pos rfl, hcut1, hcut2]
  rw [hfb]
  have htag : ServerJs1.stripJsonTag (t ++ ['\n']) = t ++ ['\n'] := by
    cases t with
    | nil => cases hcr
    | cons a t2 =>
      rw [List.cons_append]
      apply stripJsonTag_of_head
      by_cases ha : isJsonWs a = true
      · simp only [isJsonWs, Bool.or_eq_true, decide_eq_true_eq, or_assoc] at ha
        rcases ha with e | e | e | e <;> subst e <;> decide
      · have hs : skipJsonWs (a :: t2) = a :: t2 := by
          rw [skipJsonWs, List.dropWhile_cons, if_neg ha]
        rw [hs] at hcr
        injection hcr with e1 e2
        subst e1
        exact hj
  rw [htag]
  exact jsTrim_append_ws_right
    (by intro x hx; rw [List.mem_singleton] at hx; subst hx; decide)

/-- Claim C10: the model-output parsing tolerates markdown code fences — for
every valid-JSON text `t`, `tryParseJSON` returns on `t` wrapped in a
triple-backtick fence (with or without a `json` tag, with optional
surrounding whitespace) the same parsed value as on `t` alone; and on any
input that is not valid JSON after fence stripping it returns `none` (the
`null` of the caught exception) rather than throwing. -/
theorem c10_fence_tolerant_parsing (t w1 w2 : List Char) (v : Json)
    (hw1 : ∀ c ∈ w1, isTrimWs c = true) (hw2 : ∀ c ∈ w2, isTrimWs c = true)
    (hv : jsonParse t = some v) :
    ServerJs1.tryParseJSON (w1 ++ fenceJsonOpen ++ t ++ fenceCloseTok ++ w2) =
      ServerJs1.tryParseJSON t ∧
    ServerJs1.tryParseJSON (w1 ++ fencePlainOpen ++ t ++ fenceCloseTok ++ w2) =
      ServerJs1.tryParseJSON t ∧
    ∀ s : List Char, jsonParse (ServerJs1.stripCodeFences s) = none →
      ServerJs1.tryParseJSON s = none := by
  refine ⟨?_, ?_, ?_⟩
  · rw [ServerJs1.tryParseJSON, ServerJs1.tryParseJSON,
      stripCodeFences_wrapped_json hw1 hw2 hv, stripCodeFences_of_valid hv]
  · rw [ServerJs1.tryParseJSON, ServerJs1.tryParseJSON,
      stripCodeFences_wrapped_plain hw1 hw2 hv, stripCodeFences_of_valid hv]
  · intro s hs
    rw [ServerJs1.tryParseJSON, hs]

theorem c10_witness :
    ServerJs1.tryParseJSON
        ([] ++ fenceJsonOpen ++ ['[', '1', ']'] ++ fenceCloseTok ++ [' ']) =
      ServerJs1.tryParseJSON ['[', '1', ']'] ∧
    ServerJs1.tryParseJSON
        ([] ++ fencePlainOpen ++ ['[', '1', ']'] ++ fenceCloseTok ++ [' ']) =
      ServerJs1.tryParseJSON ['[', '1', ']'] ∧
    ∀ s : List Char, jsonParse (ServerJs1.stripCodeFences s) = none →
      ServerJs1.tryParseJSON s = none :=
  c10_fence_tolerant_parsing ['[', '1', ']'] [] [' '] (.jarr [.jnum ['1']])
    (fun c hc => by cases hc)
    (fun c hc => by rw [List.mem_singleton] at hc; subst hc; decide) rfl

end QuizApi
